import Mathlib

/-!
Shallow embedding of the EventHub core: the field-validation engine
(`src/validation.py`) and the login attempt throttle (`src/app.py`).

Python strings are modelled as Lean `String` (a sequence of Unicode code
points, matching CPython `str`).  Python `None` arguments are modelled as
`Option String` where a function can actually receive `None`.  Functions
that can raise an uncaught exception are modelled with `Except String`,
the `error` case carrying the exception class.  Timestamps
(`datetime.now().timestamp()`) are modelled as integers (the code only
subtracts and compares them; the claims involve whole-second elapses).

`unicodedata.normalize("NFKC", ·)` is kept abstract: every definition and
theorem that touches normalization is parametrised by an arbitrary
`nfkc : String → String`, so the results hold for the real NFKC table.
-/

namespace EventHub

/-- `c.toNat` shorthand: code point of a character. -/
def cn (c : Char) : Nat := c.toNat

/-- Models CPython whitespace (`str.strip`/`str.split`/`str.isspace` and
regex `\s`): ASCII whitespace, the C1 controls Python treats as space,
and the Unicode space separators. -/
def pyIsSpace (c : Char) : Bool :=
  (9 ≤ cn c && cn c ≤ 13) || cn c = 32 || (28 ≤ cn c && cn c ≤ 31) ||
  cn c = 0x85 || cn c = 0xA0 || cn c = 0x1680 ||
  (0x2000 ≤ cn c && cn c ≤ 0x200A) || cn c = 0x2028 || cn c = 0x2029 ||
  cn c = 0x202F || cn c = 0x205F || cn c = 0x3000

/-- The first code points of the runs of ten that make up the Unicode
decimal digits (category `Nd`, Unicode 14.0, as shipped with CPython
3.11): every `Nd` character sits in a contiguous run `start..start+9`
whose digit values are `0..9` in order. -/
def ndStarts : List Nat :=
  [0x30, 0x660, 0x6F0, 0x7C0, 0x966, 0x9E6, 0xA66, 0xAE6, 0xB66, 0xBE6,
   0xC66, 0xCE6, 0xD66, 0xDE6, 0xE50, 0xED0, 0xF20, 0x1040, 0x1090, 0x17E0,
   0x1810, 0x1946, 0x19D0, 0x1A80, 0x1A90, 0x1B50, 0x1BB0, 0x1C40, 0x1C50,
   0xA620, 0xA8D0, 0xA900, 0xA9D0, 0xA9F0, 0xAA50, 0xABF0, 0xFF10, 0x104A0,
   0x10D30, 0x11066, 0x110F0, 0x11136, 0x111D0, 0x112F0, 0x11450, 0x114D0,
   0x11650, 0x116C0, 0x11730, 0x118E0, 0x11950, 0x11C50, 0x11D50, 0x11DA0,
   0x16A60, 0x16AC0, 0x16B50, 0x1D7CE, 0x1D7D8, 0x1D7E2, 0x1D7EC, 0x1D7F6,
   0x1E140, 0x1E2F0, 0x1E950, 0x1FBF0]

/-- Models the decimal digits of CPython `str` regexes and `int(·)`: the
characters of Unicode category `Nd` (exactly what `\d` matches on `str`
patterns and what `int` parses digit-wise); NFKC leaves these intact.
(`str.isdigit` is slightly wider — it also accepts `Numeric_Type=Digit`
characters such as superscripts — which no claim here depends on.) -/
def pyIsDigit (c : Char) : Bool :=
  ndStarts.any (fun s => s ≤ cn c && cn c < s + 10)

/-- The ASCII digits `0`–`9`, as written literally in the regex ranges
`0[1-9]|1[0-2]` of `EXP_RE` (unlike `\d`, these ranges are not
Unicode-wide). -/
def isAsciiDigit (c : Char) : Bool :=
  48 ≤ cn c && cn c ≤ 57

/-- Models Python `str.isupper` per character over the Latin-1 range:
`A`–`Z` and the accented uppercase letters `À`–`Þ` (excluding `×`). -/
def pyIsUpper (c : Char) : Bool :=
  (65 ≤ cn c && cn c ≤ 90) ||
  (0xC0 ≤ cn c && cn c ≤ 0xDE && cn c ≠ 0xD7)

/-- Models Python `str.islower` per character over the Latin-1 range:
`a`–`z` and the accented lowercase letters `ß`–`ÿ` (excluding `÷`). -/
def pyIsLower (c : Char) : Bool :=
  (97 ≤ cn c && cn c ≤ 122) ||
  (0xDF ≤ cn c && cn c ≤ 0xFF && cn c ≠ 0xF7)

/-- Models Python `str.lower` per character over the Latin-1 range:
uppercase letters move down by 32, everything else is unchanged. -/
def pyLowerChar (c : Char) : Char :=
  if (65 ≤ cn c && cn c ≤ 90) || (0xC0 ≤ cn c && cn c ≤ 0xDE && cn c ≠ 0xD7) then
    Char.ofNat (cn c + 32)
  else c

/-- Models Python `str.lower`. -/
def pyLower (s : String) : String :=
  ⟨s.data.map pyLowerChar⟩

/-- Models Python `str.strip()`: drop leading and trailing whitespace. -/
def pyStrip (s : String) : String :=
  ⟨((s.data.dropWhile pyIsSpace).reverse.dropWhile pyIsSpace).reverse⟩

/-- Models Python `" ".join(s.split())`: split on whitespace runs
(dropping empty fragments) and re-join with single spaces. -/
def pyCollapseWs (s : String) : String :=
  String.intercalate " " (((s.data.splitOnP pyIsSpace).filter (fun w => !w.isEmpty)).map String.mk)

/-- Models Python `s.replace(ch, "")` for a one-character pattern (the
only form the validators use): remove every occurrence of `ch`. -/
def pyRemoveChar (ch : Char) (s : String) : String :=
  ⟨s.data.filter (fun c => c ≠ ch)⟩

/-- A Python dict lookup (`d.get(k)` / `k in d`). -/
def dictGet {α : Type} : List (String × α) → String → Option α
  | [], _ => none
  | (k, v) :: t, key => if k = key then some v else dictGet t key

/-- A Python dict write (`d[k] = v`): replace the binding if the key is
present, append it otherwise. -/
def dictSet {α : Type} : List (String × α) → String → α → List (String × α)
  | [], key, v => [(key, v)]
  | (k, w) :: t, key, v => if k = key then (k, v) :: t else (k, w) :: dictSet t key v

/-- A Python dict deletion (`del d[k]`). -/
def dictDel {α : Type} : List (String × α) → String → List (String × α)
  | [], _ => []
  | (k, w) :: t, key => if k = key then t else (k, w) :: dictDel t key


/-! ## Login attempt throttle (`src/app.py`) -/

/-- `MAX_LOGIN_ATTEMPTS = 3` in `app.py`. -/
def MAX_LOGIN_ATTEMPTS : Nat := 3

/-- `LOCK_TIME_MINUTES = 5` in `app.py`. -/
def LOCK_TIME_MINUTES : Int := 5

/-- One value of the `USER_LOGIN_ATTEMPTS` dict:
`{"intentos": ..., "tiempoBloqueo": ...}`. -/
structure AttemptRecord where
  intentos : Nat
  tiempoBloqueo : Int
  deriving Repr, DecidableEq

/-- The `USER_LOGIN_ATTEMPTS` global dict, keyed by normalized email. -/
abbrev AttemptMap := List (String × AttemptRecord)

/-- The key normalization `(email or "").strip().lower()` used by all three
throttle functions. -/
def normalizeEmailKey (email : String) : String :=
  pyLower (pyStrip email)

/-- `is_user_locked` from `app.py`.  `now` models the
`datetime.now().timestamp()` reading taken inside the function. -/
def is_user_locked (m : AttemptMap) (email : String) (now : Int) : Bool × Int :=
  let key := normalizeEmailKey email
  match dictGet m key with
  | none => (false, 0)
  | some st =>
    if st.intentos < MAX_LOGIN_ATTEMPTS then (false, 0)
    else
      let elapsed := now - st.tiempoBloqueo
      let remaining := LOCK_TIME_MINUTES * 60 - elapsed
      if remaining ≤ 0 then (false, 0)
      else (true, remaining)

/-- `reset_user_attempts` from `app.py`: delete the record if present. -/
def reset_user_attempts (m : AttemptMap) (email : String) : AttemptMap :=
  let key := normalizeEmailKey email
  match dictGet m key with
  | none => m
  | some _ => dictDel m key

/-- `increment_user_attempts` from `app.py`.  `now` models the
`datetime.now().timestamp()` reading taken when the threshold is met. -/
def increment_user_attempts (m : AttemptMap) (email : String) (now : Int) : AttemptMap :=
  let key := normalizeEmailKey email
  let st :=
    match dictGet m key with
    | none => { intentos := 0, tiempoBloqueo := 0 : AttemptRecord }
    | some st => st
  let st := { st with intentos := st.intentos + 1 }
  let st :=
    if st.intentos ≥ MAX_LOGIN_ATTEMPTS then { st with tiempoBloqueo := now }
    else st
  dictSet m key st

/-! ## Field validation engine (`src/validation.py`) -/

/-- `normalize_basic` from `validation.py`: NFKC-normalize (the abstract
`nfkc` parameter) then strip.  `None` — and `""`, via `(value or "")` —
normalizes to the empty string. -/
def normalize_basic (nfkc : String → String) (value : Option String) : String :=
  pyStrip (nfkc (value.getD ""))

/-- The subject seen by a Python `$` anchor: `$` matches at the end of the
string or just before one newline at the very end, so `re.match(p ++ "$", s)`
may ignore a single trailing `\n`. -/
def dollarSubject (l : List Char) : List Char :=
  if l.getLast? = some '\n' then l.dropLast else l

/-- Models `re.match` for `CARD_DIGITS_RE` and `PHONE_RE`, both compiled
from `^\d+$`: a nonempty run of digits, possibly followed by one trailing
newline that the `$` anchor tolerates. -/
def digitsOnlyMatch (s : String) : Bool :=
  let core := dollarSubject s.data
  !core.isEmpty && core.all pyIsDigit

/-- Models `re.match` for `CVV_RE = ^\d{3,4}$`. -/
def cvvMatch (s : String) : Bool :=
  let core := dollarSubject s.data
  (core.length = 3 || core.length = 4) && core.all pyIsDigit

/-- Models `re.match` for `EXP_RE = ^(0[1-9]|1[0-2])\/\d{2}$`. -/
def expMatch (s : String) : Bool :=
  match dollarSubject s.data with
  | [a, b, sl, d, e] =>
    sl = '/' && pyIsDigit d && pyIsDigit e &&
    ((a = '0' && 49 ≤ cn b && cn b ≤ 57) || (a = '1' && 48 ≤ cn b && cn b ≤ 50))
  | _ => false

/-- Models `re.match` for `EMAIL_BASIC_RE` and `EMAIL_REGISTRATION_RE`,
both compiled from `^[^@\s]+@[^@\s]+\.[^@\s]+$`: exactly one `@`; a
nonempty whitespace-free local part; a whitespace-free domain containing
a `.` that is neither its first nor its last character. -/
def emailBasicMatch (s : String) : Bool :=
  match (dollarSubject s.data).splitOn '@' with
  | [loc, dom] =>
    !loc.isEmpty && loc.all (fun c => !pyIsSpace c) &&
    dom.all (fun c => !pyIsSpace c) && dom.tail.dropLast.contains '.'
  | _ => false

/-- One character of the class `[A-Za-zÀ-ÖØ-öø-ÿ' -]` shared by
`NAME_ALLOWED_RE` and `FULL_NAME_RE`. -/
def nameAllowedChar (c : Char) : Bool :=
  (65 ≤ cn c && cn c ≤ 90) || (97 ≤ cn c && cn c ≤ 122) ||
  (0xC0 ≤ cn c && cn c ≤ 0xD6) || (0xD8 ≤ cn c && cn c ≤ 0xF6) ||
  (0xF8 ≤ cn c && cn c ≤ 0xFF) ||
  cn c = 39 || cn c = 32 || cn c = 45

/-- Models `re.match` for `NAME_ALLOWED_RE` and `FULL_NAME_RE`, both
compiled from `^[A-Za-zÀ-ÖØ-öø-ÿ' -]+$`. -/
def nameAllowedMatch (s : String) : Bool :=
  let core := dollarSubject s.data
  !core.isEmpty && core.all nameAllowedChar

/-- `int(digit)` for a decimal digit character: its offset within its
`Nd` run (the Unicode decimal value, e.g. `int("٢") = 2`).  On a
non-digit character `int` raises `ValueError`; the one reachable raise
site is modelled explicitly inside `validate_card_number`. -/
def digitVal (c : Char) : Nat :=
  match ndStarts.find? (fun s => s ≤ cn c && cn c < s + 10) with
  | some s => cn c - s
  | none => cn c - 48

/-- One iteration of the `for i, digit in enumerate(reverse_digits)` loop
of `luhn_is_valid`: double the digits at odd indices, subtracting 9 when
the doubled value exceeds 9, and add to the running total. -/
def luhnStep (total : Nat) (ic : Nat × Char) : Nat :=
  let n := digitVal ic.2
  let n := if ic.1 % 2 = 1 then (let m := n * 2; if m > 9 then m - 9 else m) else n
  total + n

/-- `luhn_is_valid` from `validation.py`, on a string of digit
characters. -/
def luhn_is_valid (number : String) : Bool :=
  (number.data.reverse.enum.foldl luhnStep 0) % 10 == 0

/-- `validate_card_number` from `validation.py`.  The result is `Except`
because `luhn_is_valid` applies `int` to every character of `card`, and
the digits regex lets a single trailing newline through (its `$` anchor
matches before it): on such a character `int` raises `ValueError`. -/
def validate_card_number (nfkc : String → String) (card_number : String) :
    Except String (String × String) :=
  let card := normalize_basic nfkc (some card_number)
  let card := pyRemoveChar '-' (pyRemoveChar ' ' card)
  if !digitsOnlyMatch card then .ok ("", "Card number must contain digits only")
  else if !(13 ≤ card.length && card.length ≤ 19) then
    .ok ("", "Card number must be between 13 and 19 digits")
  else if !card.data.all pyIsDigit then .error "ValueError"
  else if !luhn_is_valid card then .ok ("", "Invalid card number (Luhn check failed)")
  else .ok (card, "")

/-- The `(now.year, now.month)` fields of the `datetime.utcnow()` value
that `validate_exp_date` reads from the environment clock. -/
structure UtcNow where
  year : Nat
  month : Nat
  deriving Repr, DecidableEq

/-- `int(month)` for the `MM` part of a matched `MM/YY` string. -/
def expMonth (s : String) : Nat :=
  match s.data with
  | a :: b :: _ => 10 * digitVal a + digitVal b
  | _ => 0

/-- `int(year)` for the `YY` part of a matched `MM/YY` string. -/
def expYY (s : String) : Nat :=
  match s.data with
  | _ :: _ :: _ :: d :: e :: _ => 10 * digitVal d + digitVal e
  | _ => 0

/-- `validate_exp_date` from `validation.py`.  The `now` parameter models
the `datetime.utcnow()` reading taken inside the function — it is not an
argument of the Python function. -/
def validate_exp_date (nfkc : String → String) (exp_date : String) (now : UtcNow) :
    String × String :=
  let exp := normalize_basic nfkc (some exp_date)
  if !expMatch exp then ("", "Expiration date must be in MM/YY format")
  else
    let month := expMonth exp
    let year := 2000 + expYY exp
    if year < now.year ∨ (year = now.year ∧ month < now.month) then ("", "Card is expired")
    else if year > now.year + 15 then ("", "Expiration date too far in future")
    else (exp, "")

/-- `validate_cvv` from `validation.py`: the clean value is empty even on
success. -/
def validate_cvv (nfkc : String → String) (cvv : String) : String × String :=
  let value := normalize_basic nfkc (some cvv)
  if !cvvMatch value then ("", "CVV must be 3 or 4 digits")
  else ("", "")

/-- `validate_billing_email` from `validation.py`. -/
def validate_billing_email (nfkc : String → String) (billing_email : String) :
    String × String :=
  let email := pyLower (normalize_basic nfkc (some billing_email))
  if email = "" then ("", "Email is required")
  else if email.length > 254 then ("", "Email too long")
  else if !emailBasicMatch email then ("", "Invalid email format")
  else (email, "")

/-- `validate_name_on_card` from `validation.py`. -/
def validate_name_on_card (nfkc : String → String) (name_on_card : String) :
    String × String :=
  let name := normalize_basic nfkc (some name_on_card)
  let name := pyCollapseWs name
  if name = "" then ("", "Name is required")
  else if !(2 ≤ name.length && name.length ≤ 60) then
    ("", "Name must be between 2 and 60 characters")
  else if !nameAllowedMatch name then ("", "Name contains invalid characters")
  else (name, "")

/-- `validate_payment_form` from `validation.py`: run all five validators,
collect every error, and build the clean dict (which never gets a `cvv`
entry).  A `ValueError` escaping `validate_card_number` propagates. -/
def validate_payment_form (nfkc : String → String)
    (card_number exp_date cvv name_on_card billing_email : String) (now : UtcNow) :
    Except String (List (String × String) × List (String × String)) :=
  match validate_card_number nfkc card_number with
  | .error e => .error e
  | .ok (card, cardErr) =>
    let clean : List (String × String) := []
    let errors : List (String × String) := []
    let errors := if cardErr ≠ "" then dictSet errors "card_number" cardErr else errors
    let clean := dictSet clean "card" card
    let expResult := validate_exp_date nfkc exp_date now
    let errors := if expResult.2 ≠ "" then dictSet errors "exp_date" expResult.2 else errors
    let clean := dictSet clean "exp_date" expResult.1
    let cvvResult := validate_cvv nfkc cvv
    let errors := if cvvResult.2 ≠ "" then dictSet errors "cvv" cvvResult.2 else errors
    let nameResult := validate_name_on_card nfkc name_on_card
    let errors := if nameResult.2 ≠ "" then dictSet errors "name_on_card" nameResult.2 else errors
    let clean := dictSet clean "name_on_card" nameResult.1
    let emailResult := validate_billing_email nfkc billing_email
    let errors := if emailResult.2 ≠ "" then dictSet errors "billing_email" emailResult.2 else errors
    let clean := dictSet clean "billing_email" emailResult.1
    .ok (clean, errors)

/-- `validate_full_name` from `validation.py`. -/
def validate_full_name (nfkc : String → String) (full_name : String) : String × String :=
  let name := normalize_basic nfkc (some full_name)
  let name := pyCollapseWs name
  if name = "" then ("", "Full name is required")
  else if name.length < 2 then ("", "Full name must be at least 2 characters")
  else if name.length > 60 then ("", "Full name must not exceed 60 characters")
  else if !nameAllowedMatch name then
    ("", "Full name can only contain letters, spaces, apostrophes, and hyphens")
  else (name, "")

/-- One element of the `existing_users` collection; the field models
`user.get("email", "")`. -/
structure UserRec where
  email : String
  deriving Repr, DecidableEq

/-- `validate_registration_email` from `validation.py`.  A Python
`existing_users` of `None` is modelled as `[]`: the `if existing_users:`
guard and the loop over an empty list find no duplicate either way. -/
def validate_registration_email (nfkc : String → String) (email : String)
    (existing_users : List UserRec) : String × String :=
  let email_clean := pyLower (normalize_basic nfkc (some email))
  if email_clean = "" then ("", "Email is required")
  else if email_clean.length > 254 then ("", "Email must not exceed 254 characters")
  else if email_clean.data.count '@' ≠ 1 then ("", "Email must contain exactly one @ symbol")
  else if !emailBasicMatch email_clean then ("", "Invalid email format")
  else if existing_users.any (fun u => pyLower u.email = email_clean) then
    ("", "This email is already registered")
  else (email_clean, "")

/-- The body of `validate_phone` on a non-`None` argument.  Note the
`.replace` chain runs on the raw argument, before `normalize_basic`. -/
def validate_phone_str (nfkc : String → String) (phone : String) : String × String :=
  let phone_clean :=
    pyRemoveChar ')' (pyRemoveChar '(' (pyRemoveChar '-' (pyRemoveChar ' ' phone)))
  let phone_clean := normalize_basic nfkc (some phone_clean)
  if phone_clean = "" then ("", "Phone number is required")
  else if !digitsOnlyMatch phone_clean then ("", "Phone number must contain only digits")
  else if phone_clean.length < 7 then ("", "Phone number must be at least 7 digits")
  else if phone_clean.length > 15 then ("", "Phone number must not exceed 15 digits")
  else (phone_clean, "")

/-- `validate_phone` from `validation.py`.  On `None` the very first
statement, `phone.replace(" ", "")`, raises `AttributeError` — unlike
every other validator, which reaches `normalize_basic` (whose
`(value or "")` absorbs `None`) first. -/
def validate_phone (nfkc : String → String) (phone : Option String) :
    Except String (String × String) :=
  match phone with
  | none => .error "AttributeError"
  | some p => .ok (validate_phone_str nfkc p)

/-- The `PASSWORD_SPECIAL_CHARS` constant from `validation.py`. -/
def PASSWORD_SPECIAL_CHARS : String := "!@#$%^&*()-_=+[]\x7b\x7d<>?"

/-- `validate_password` from `validation.py`.  The Python defaults
`email=""`, `confirm_password=""` are passed explicitly here. -/
def validate_password (password : String) (email : String) (confirm_password : String) :
    String × String :=
  if password = "" then ("", "Password is required")
  else if password.length < 8 then ("", "Password must be at least 8 characters")
  else if password.length > 64 then ("", "Password must not exceed 64 characters")
  else if password.data.any pyIsSpace then ("", "Password must not contain whitespace")
  else if !password.data.any pyIsUpper then
    ("", "Password must contain at least one uppercase letter")
  else if !password.data.any pyIsLower then
    ("", "Password must contain at least one lowercase letter")
  else if !password.data.any pyIsDigit then
    ("", "Password must contain at least one number")
  else if !password.data.any (fun c => PASSWORD_SPECIAL_CHARS.data.contains c) then
    ("", "Password must contain at least one special character (!@#$%^&*()-_=+[]\x7b\x7d<>?)")
  else if email ≠ "" ∧ password = email then
    ("", "Password cannot be the same as your email")
  else if confirm_password ≠ "" ∧ password ≠ confirm_password then
    ("", "Password confirmation does not match")
  else (password, "")

/-- `validate_registration_form` from `validation.py`: validate every
field, collecting all errors; the password check receives the cleaned
email.  An `AttributeError` escaping `validate_phone` propagates. -/
def validate_registration_form (nfkc : String → String) (full_name email : String)
    (phone : Option String) (password confirm_password : String)
    (existing_users : List UserRec) :
    Except String (List (String × String) × List (String × String)) :=
  let clean : List (String × String) := []
  let errors : List (String × String) := []
  let nameResult := validate_full_name nfkc full_name
  let errors := if nameResult.2 ≠ "" then dictSet errors "full_name" nameResult.2 else errors
  let clean := dictSet clean "full_name" nameResult.1
  let emailResult := validate_registration_email nfkc email existing_users
  let errors := if emailResult.2 ≠ "" then dictSet errors "email" emailResult.2 else errors
  let clean := dictSet clean "email" emailResult.1
  match validate_phone nfkc phone with
  | .error e => .error e
  | .ok (phoneClean, phoneErr) =>
    let errors := if phoneErr ≠ "" then dictSet errors "phone" phoneErr else errors
    let clean := dictSet clean "phone" phoneClean
    let pwResult := validate_password password emailResult.1 confirm_password
    let errors := if pwResult.2 ≠ "" then dictSet errors "password" pwResult.2 else errors
    let clean := dictSet clean "password" pwResult.1
    .ok (clean, errors)

/-! ## Dictionary lemmas -/

theorem dictGet_dictSet_self {α : Type} (m : List (String × α)) (k : String) (v : α) :
    dictGet (dictSet m k v) k = some v := by
  induction m with
  | nil => simp [dictSet, dictGet]
  | cons p t ih =>
    obtain ⟨k1, v1⟩ := p
    by_cases hk : k1 = k
    · simp [dictSet, dictGet, hk]
    · simp [dictSet, dictGet, hk, ih]

theorem dictSet_of_absent {α : Type} (m : List (String × α)) (k : String) (v : α)
    (h : dictGet m k = none) : dictSet m k v = m ++ [(k, v)] := by
  induction m with
  | nil => simp [dictSet]
  | cons p t ih =>
    obtain ⟨k1, v1⟩ := p
    by_cases hk : k1 = k
    · simp [dictGet, hk] at h
    · simp [dictGet, hk] at h
      simp [dictSet, hk, ih h]

theorem dictGet_append_absent {α : Type} (m : List (String × α)) (k : String) (v : α)
    (h : dictGet m k = none) : dictGet (m ++ [(k, v)]) k = some v := by
  induction m with
  | nil => simp [dictGet]
  | cons p t ih =>
    obtain ⟨k1, v1⟩ := p
    by_cases hk : k1 = k
    · simp [dictGet, hk] at h
    · simp [dictGet, hk] at h
      simp [dictGet, hk, ih h]

theorem dictSet_append_absent {α : Type} (m : List (String × α)) (k : String) (v w : α)
    (h : dictGet m k = none) : dictSet (m ++ [(k, v)]) k w = m ++ [(k, w)] := by
  induction m with
  | nil => simp [dictSet]
  | cons p t ih =>
    obtain ⟨k1, v1⟩ := p
    by_cases hk : k1 = k
    · simp [dictGet, hk] at h
    · simp [dictGet, hk] at h
      simp [dictSet, hk, ih h]

theorem dictDel_append_absent {α : Type} (m : List (String × α)) (k : String) (v : α)
    (h : dictGet m k = none) : dictDel (m ++ [(k, v)]) k = m := by
  induction m with
  | nil => simp [dictDel]
  | cons p t ih =>
    obtain ⟨k1, v1⟩ := p
    by_cases hk : k1 = k
    · simp [dictGet, hk] at h
    · simp [dictGet, hk] at h
      simp [dictDel, hk, ih h]

/-! ## Throttle stepping lemmas -/

theorem intentos_mk (n : Nat) (t : Int) : (AttemptRecord.mk n t).intentos = n := rfl

theorem tiempoBloqueo_mk (n : Nat) (t : Int) : (AttemptRecord.mk n t).tiempoBloqueo = t := rfl

theorem increment_absent (m : AttemptMap) (e : String) (t : Int)
    (h : dictGet m (normalizeEmailKey e) = none) :
    increment_user_attempts m e t = m ++ [(normalizeEmailKey e, ⟨1, 0⟩)] := by
  simp only [increment_user_attempts, h, MAX_LOGIN_ATTEMPTS]
  norm_num
  exact dictSet_of_absent m _ _ h

theorem increment_present (m : AttemptMap) (e : String) (t : Int) (rec : AttemptRecord)
    (h : dictGet m (normalizeEmailKey e) = some rec) :
    increment_user_attempts m e t =
      dictSet m (normalizeEmailKey e)
        (if MAX_LOGIN_ATTEMPTS ≤ rec.intentos + 1 then ⟨rec.intentos + 1, t⟩
         else ⟨rec.intentos + 1, rec.tiempoBloqueo⟩) := by
  simp only [increment_user_attempts, h, ge_iff_le]

theorem is_user_locked_some (m : AttemptMap) (e : String) (now : Int) (rec : AttemptRecord)
    (h : dictGet m (normalizeEmailKey e) = some rec) :
    is_user_locked m e now =
      if rec.intentos < MAX_LOGIN_ATTEMPTS then (false, 0)
      else if 300 - (now - rec.tiempoBloqueo) ≤ 0 then (false, 0)
      else (true, 300 - (now - rec.tiempoBloqueo)) := by
  simp only [is_user_locked, h, LOCK_TIME_MINUTES]
  norm_num

/-! ## Claim theorems: login attempt throttle -/

/-- C1 (counterexample): the claim says a `recordFailure` on an already
locked identifier leaves the stored lock timestamp unchanged.  It does
not: with `"a@b.com"` locked at time 100 (and still locked at time 200,
remaining 200 s), a further failure at time 200 stores the record
`{intentos := 4, tiempoBloqueo := 200}` — the timestamp moved from 100
to 200. -/
theorem locked_failure_refreshes_timestamp_cex :
    is_user_locked [("a@b.com", ⟨3, 100⟩)] "a@b.com" 200 = (true, 200) ∧
    dictGet (increment_user_attempts [("a@b.com", ⟨3, 100⟩)] "a@b.com" 200) "a@b.com"
      = some ⟨4, 200⟩ := by
  decide

/-- C1 (amended): for an identifier whose failure count is already at or
above `MAX_LOGIN_ATTEMPTS`, a further `increment_user_attempts` call at
time `t` increments the count and **sets the stored lock timestamp to
`t`** — the lock window is refreshed by every further failure, not fixed
from the first entry into the locked state. -/
theorem locked_failure_refreshes_timestamp (m : AttemptMap) (e : String) (t : Int)
    (rec : AttemptRecord) (h : dictGet m (normalizeEmailKey e) = some rec)
    (hl : MAX_LOGIN_ATTEMPTS ≤ rec.intentos) :
    dictGet (increment_user_attempts m e t) (normalizeEmailKey e)
      = some ⟨rec.intentos + 1, t⟩ := by
  rw [increment_present m e t rec h, if_pos (by omega)]
  exact dictGet_dictSet_self m (normalizeEmailKey e) _

/-- Witness for the amended C1 at a concrete locked state. -/
theorem locked_failure_refreshes_timestamp_witness :
    dictGet (increment_user_attempts [("a@b.com", ⟨3, 100⟩)] "a@b.com" 200)
      (normalizeEmailKey "a@b.com") = some ⟨4, 200⟩ :=
  locked_failure_refreshes_timestamp [("a@b.com", ⟨3, 100⟩)] "a@b.com" 200 ⟨3, 100⟩
    (by decide) (by decide)

/-- C5: from an untracked identifier, three `increment_user_attempts`
calls lock it: `is_user_locked` at the time of the third failure reports
`(true, 300)`; 301 seconds later it reports `(false, 0)`; and a
`reset_user_attempts` then removes the record entirely. -/
theorem throttle_lock_cycle (m : AttemptMap) (e : String) (t1 t2 t3 : Int) (m3 : AttemptMap)
    (h : dictGet m (normalizeEmailKey e) = none)
    (hm3 : m3 = increment_user_attempts (increment_user_attempts
      (increment_user_attempts m e t1) e t2) e t3) :
    is_user_locked m3 e t3 = (true, 300) ∧
    is_user_locked m3 e (t3 + 301) = (false, 0) ∧
    dictGet (reset_user_attempts m3 e) (normalizeEmailKey e) = none := by
  have h1 : increment_user_attempts m e t1 = m ++ [(normalizeEmailKey e, ⟨1, 0⟩)] :=
    increment_absent m e t1 h
  have h2 : increment_user_attempts (m ++ [(normalizeEmailKey e, ⟨1, 0⟩)]) e t2
      = m ++ [(normalizeEmailKey e, ⟨2, 0⟩)] := by
    rw [increment_present _ e t2 ⟨1, 0⟩ (dictGet_append_absent m _ _ h), if_neg (by decide)]
    exact dictSet_append_absent m _ _ _ h
  have h3 : increment_user_attempts (m ++ [(normalizeEmailKey e, ⟨2, 0⟩)]) e t3
      = m ++ [(normalizeEmailKey e, ⟨3, t3⟩)] := by
    rw [increment_present _ e t3 ⟨2, 0⟩ (dictGet_append_absent m _ _ h), if_pos (by decide)]
    exact dictSet_append_absent m _ _ _ h
  have hm3e : m3 = m ++ [(normalizeEmailKey e, ⟨3, t3⟩)] := by rw [hm3, h1, h2, h3]
  have hg : dictGet m3 (normalizeEmailKey e) = some ⟨3, t3⟩ := by
    rw [hm3e]; exact dictGet_append_absent m _ _ h
  refine ⟨?_, ?_, ?_⟩
  · have hc : ¬ (300 : Int) - (t3 - t3) ≤ 0 := by omega
    rw [is_user_locked_some m3 e t3 _ hg, intentos_mk, tiempoBloqueo_mk,
      if_neg (by decide), if_neg hc]
    simp
  · have hc : (300 : Int) - (t3 + 301 - t3) ≤ 0 := by omega
    rw [is_user_locked_some m3 e (t3 + 301) _ hg, intentos_mk, tiempoBloqueo_mk,
      if_neg (by decide), if_pos hc]
  · have hres : reset_user_attempts m3 e = dictDel m3 (normalizeEmailKey e) := by
      simp only [reset_user_attempts, hg]
    rw [hres, hm3e, dictDel_append_absent m _ _ h]
    exact h

/-- Witness for C5: the spec scenario with `"a@b.com"` from the empty map. -/
theorem throttle_lock_cycle_witness :
    is_user_locked (increment_user_attempts (increment_user_attempts
      (increment_user_attempts [] "a@b.com" 10) "a@b.com" 20) "a@b.com" 30)
      "a@b.com" 30 = (true, 300) ∧
    is_user_locked (increment_user_attempts (increment_user_attempts
      (increment_user_attempts [] "a@b.com" 10) "a@b.com" 20) "a@b.com" 30)
      "a@b.com" (30 + 301) = (false, 0) ∧
    dictGet (reset_user_attempts (increment_user_attempts (increment_user_attempts
      (increment_user_attempts [] "a@b.com" 10) "a@b.com" 20) "a@b.com" 30) "a@b.com")
      (normalizeEmailKey "a@b.com") = none :=
  throttle_lock_cycle [] "a@b.com" 10 20 30 _ (by decide) rfl

/-- C10: once the failure count is at or above the threshold, a single
further `increment_user_attempts` at time `t2` — in particular after the
previous lock window has expired (`is_user_locked` reporting
`(false, 0)` at some time `t`) — keeps the count at or above the
threshold, stores `t2` as the lock timestamp, and makes `is_user_locked`
at `t2` report a fresh full window `(true, 300)`. -/
theorem expired_lock_refailure_relocks (m : AttemptMap) (e : String) (t t2 : Int)
    (rec : AttemptRecord) (h : dictGet m (normalizeEmailKey e) = some rec)
    (hl : MAX_LOGIN_ATTEMPTS ≤ rec.intentos)
    (hexp : is_user_locked m e t = (false, 0)) :
    dictGet (increment_user_attempts m e t2) (normalizeEmailKey e)
      = some ⟨rec.intentos + 1, t2⟩ ∧
    MAX_LOGIN_ATTEMPTS ≤ rec.intentos + 1 ∧
    is_user_locked (increment_user_attempts m e t2) e t2 = (true, 300) := by
  have hr : dictGet (increment_user_attempts m e t2) (normalizeEmailKey e)
      = some ⟨rec.intentos + 1, t2⟩ := by
    rw [increment_present m e t2 rec h, if_pos (by omega)]
    exact dictGet_dictSet_self m (normalizeEmailKey e) _
  refine ⟨hr, by omega, ?_⟩
  have h1 : ¬ rec.intentos + 1 < MAX_LOGIN_ATTEMPTS := by omega
  have h2 : ¬ (300 : Int) - (t2 - t2) ≤ 0 := by omega
  rw [is_user_locked_some _ e t2 _ hr, intentos_mk, tiempoBloqueo_mk, if_neg h1, if_neg h2]
  simp

/-- Witness for C10: `"a@b.com"` locked at time 0, expired at time 301,
re-failed at time 400. -/
theorem expired_lock_refailure_relocks_witness :
    dictGet (increment_user_attempts [("a@b.com", ⟨3, 0⟩)] "a@b.com" 400)
      (normalizeEmailKey "a@b.com") = some ⟨4, 400⟩ ∧
    MAX_LOGIN_ATTEMPTS ≤ 3 + 1 ∧
    is_user_locked (increment_user_attempts [("a@b.com", ⟨3, 0⟩)] "a@b.com" 400)
      "a@b.com" 400 = (true, 300) :=
  expired_lock_refailure_relocks [("a@b.com", ⟨3, 0⟩)] "a@b.com" 301 400 ⟨3, 0⟩
    (by decide) (by decide) (by decide)

/-! ## Claim theorems: validation engine -/

/-- C2 (code bug): the spec promises every validator returns a structured
`(cleanValue, error)` result on any input, `None` included, and the module
docstring of `validation.py` says the same; but `validate_phone` runs
`phone.replace(" ", "")` before `normalize_basic`, so a `None` argument
raises `AttributeError` instead of returning a result. -/
theorem validate_phone_none_raises :
    ∀ nfkc : String → String, validate_phone nfkc none = Except.error "AttributeError" := by
  intro nfkc
  rfl

/-- The Luhn adjustment of the reference definition: double the digit at
every odd 0-indexed position from the right, subtracting 9 when the
doubled value exceeds 9. -/
def luhnSpecDouble (i : Nat) (d : Nat) : Nat :=
  if i % 2 = 1 then (if 2 * d > 9 then 2 * d - 9 else 2 * d) else d

/-- The reference Luhn sum over the digits listed from the least
significant, indexed from `i`. -/
def luhnSpecSum : Nat → List Nat → Nat
  | _, [] => 0
  | i, d :: t => luhnSpecDouble i d + luhnSpecSum (i + 1) t

/-- The standard Luhn/mod-10 reference check, written from the spec text:
traverse digits from the least significant, adjust odd positions, sum,
and test divisibility by 10. -/
def luhn_spec (number : String) : Bool :=
  luhnSpecSum 0 (number.data.reverse.map digitVal) % 10 == 0

theorem luhnStep_eq (acc i : Nat) (c : Char) :
    luhnStep acc (i, c) = acc + luhnSpecDouble i (digitVal c) := by
  simp only [luhnStep, luhnSpecDouble]
  by_cases h : i % 2 = 1 <;> simp [h, Nat.mul_comm]

theorem luhn_foldl_eq (l : List Char) : ∀ i acc : Nat,
    (List.enumFrom i l).foldl luhnStep acc = acc + luhnSpecSum i (l.map digitVal) := by
  induction l with
  | nil => intro i acc; simp [luhnSpecSum]
  | cons c t ih =>
    intro i acc
    simp only [List.enumFrom, List.foldl, List.map, luhnSpecSum]
    rw [ih, luhnStep_eq]
    omega

/-- C6: `luhn_is_valid` implements the standard Luhn/mod-10 reference
definition on every digit string, and gives the documented verdicts on
the two spec test vectors. -/
theorem luhn_matches_reference :
    (∀ s : String, (∀ c ∈ s.data, pyIsDigit c = true) → luhn_is_valid s = luhn_spec s) ∧
    luhn_is_valid "4532015112830366" = true ∧
    luhn_is_valid "4532015112830367" = false := by
  refine ⟨fun s _ => ?_, by decide, by decide⟩
  simp only [luhn_is_valid, luhn_spec, List.enum]
  rw [luhn_foldl_eq]
  simp

/-- Witness for C6 at the valid spec test vector. -/
theorem luhn_matches_reference_witness :
    luhn_is_valid "4532015112830366" = luhn_spec "4532015112830366" :=
  luhn_matches_reference.1 "4532015112830366" (by decide)

/-- C3 (counterexample): the claim says validator results depend only on
the explicit arguments because "now" is supplied by the caller.  But
`validate_exp_date` reads `datetime.utcnow()` itself: the same input
`"03/24"` is accepted when the clock reads March 2024 and rejected as
expired when it reads April 2024. -/
theorem exp_date_clock_dependent_cex :
    validate_exp_date id "03/24" ⟨2024, 3⟩ = ("03/24", "") ∧
    validate_exp_date id "03/24" ⟨2024, 4⟩ = ("", "Card is expired") := by
  decide

/-- C3 (amended): `validate_exp_date` reads the clock inside the
function, so it is deterministic only in the pair (input, clock reading):
its result is independent of the clock exactly when the normalized input
fails the `MM/YY` format check, and for every format-valid input there
are two clock readings giving different results. -/
theorem exp_date_clock_dependence (nfkc : String → String) (exp : String) :
    (expMatch (normalize_basic nfkc (some exp)) = false →
      ∀ n1 n2 : UtcNow, validate_exp_date nfkc exp n1 = validate_exp_date nfkc exp n2) ∧
    (expMatch (normalize_basic nfkc (some exp)) = true →
      validate_exp_date nfkc exp
          ⟨2000 + expYY (normalize_basic nfkc (some exp)),
           expMonth (normalize_basic nfkc (some exp))⟩ ≠
        validate_exp_date nfkc exp
          ⟨2000 + expYY (normalize_basic nfkc (some exp)) + 1, 1⟩) := by
  constructor
  · intro h n1 n2
    simp [validate_exp_date, h]
  · intro h
    simp only [validate_exp_date, h, Bool.not_true, Bool.false_eq_true, if_false]
    rw [if_neg (by omega), if_neg (by omega), if_pos (by omega)]
    simp

/-- Witness for the amended C3: a format-invalid input is clock
independent; `"03/24"` is clock dependent. -/
theorem exp_date_clock_dependence_witness :
    validate_exp_date id "nope" ⟨2024, 3⟩ = validate_exp_date id "nope" ⟨2099, 12⟩ ∧
    validate_exp_date id "03/24" ⟨2024, 3⟩ ≠ validate_exp_date id "03/24" ⟨2025, 1⟩ :=
  ⟨(exp_date_clock_dependence id "nope").1 (by decide) ⟨2024, 3⟩ ⟨2099, 12⟩,
   (exp_date_clock_dependence id "03/24").2 (by decide)⟩

/-- The ten password rules of the spec precedence list
(required → length-min → length-max → whitespace → uppercase → lowercase
→ digit → special-char → equals-email → confirmation-mismatch), each
paired with its error message; a rule fires when its flag is `true`. -/
def pwRules (p e conf : String) : List (Bool × String) :=
  [ (decide (p = ""), "Password is required"),
    (decide (p.length < 8), "Password must be at least 8 characters"),
    (decide (p.length > 64), "Password must not exceed 64 characters"),
    (p.data.any pyIsSpace, "Password must not contain whitespace"),
    (!p.data.any pyIsUpper, "Password must contain at least one uppercase letter"),
    (!p.data.any pyIsLower, "Password must contain at least one lowercase letter"),
    (!p.data.any pyIsDigit, "Password must contain at least one number"),
    (!p.data.any (fun c => PASSWORD_SPECIAL_CHARS.data.contains c),
      "Password must contain at least one special character (!@#$%^&*()-_=+[]\x7b\x7d<>?)"),
    (decide (e ≠ "" ∧ p = e), "Password cannot be the same as your email"),
    (decide (conf ≠ "" ∧ p ≠ conf), "Password confirmation does not match") ]

/-- The message of the first rule that fires, if any. -/
def firstFailure (l : List (Bool × String)) : Option String :=
  (l.find? (fun r => r.1)).map (fun r => r.2)

/-- C9: `validate_password` is first-failure-wins in exactly the spec's
precedence order — its result is the error of the earliest violated rule
of `pwRules`, or the password itself when no rule fires — and the three
spec examples behave as documented (for `"Abcdefgh"` the earlier failing
rule is the missing digit). -/
theorem password_first_failure_wins :
    (∀ p e conf : String, validate_password p e conf =
      match firstFailure (pwRules p e conf) with
      | some msg => ("", msg)
      | none => (p, "")) ∧
    validate_password "Abcdef1!" "" "" = ("Abcdef1!", "") ∧
    validate_password "abcdefg1!" "" ""
      = ("", "Password must contain at least one uppercase letter") ∧
    validate_password "Abcdefgh" "" "" = ("", "Password must contain at least one number") := by
  refine ⟨fun p e conf => ?_, by decide, by decide, by decide⟩
  simp only [validate_password, pwRules, firstFailure]
  by_cases h1 : p = ""
  · simp only [if_pos h1, decide_eq_true h1]; rfl
  rw [if_neg h1, decide_eq_false h1]
  by_cases h2 : p.length < 8
  · simp only [if_pos h2, decide_eq_true h2]; rfl
  rw [if_neg h2, decide_eq_false h2]
  by_cases h3 : p.length > 64
  · simp only [if_pos h3, decide_eq_true h3]; rfl
  rw [if_neg h3, decide_eq_false h3]
  by_cases h4 : p.data.any pyIsSpace = true
  · simp only [if_pos h4, h4]; rfl
  rw [if_neg h4]; rw [Bool.not_eq_true] at h4; rw [h4]
  by_cases h5 : (!p.data.any pyIsUpper) = true
  · simp only [if_pos h5, h5]; rfl
  rw [if_neg h5]; rw [Bool.not_eq_true] at h5; rw [h5]
  by_cases h6 : (!p.data.any pyIsLower) = true
  · simp only [if_pos h6, h6]; rfl
  rw [if_neg h6]; rw [Bool.not_eq_true] at h6; rw [h6]
  by_cases h7 : (!p.data.any pyIsDigit) = true
  · simp only [if_pos h7, h7]; rfl
  rw [if_neg h7]; rw [Bool.not_eq_true] at h7; rw [h7]
  by_cases h8 : (!p.data.any fun c => PASSWORD_SPECIAL_CHARS.data.contains c) = true
  · simp only [if_pos h8, h8]; rfl
  rw [if_neg h8]; rw [Bool.not_eq_true] at h8; rw [h8]
  by_cases h9 : e ≠ "" ∧ p = e
  · simp only [if_pos h9, decide_eq_true h9]; rfl
  rw [if_neg h9, decide_eq_false h9]
  by_cases h10 : conf ≠ "" ∧ p ≠ conf
  · simp only [if_pos h10, decide_eq_true h10]; rfl
  rw [if_neg h10, decide_eq_false h10]
  rfl

/-- The spec's ValidationResult invariant: a non-empty error forces an
empty clean value, and an empty error forces a non-empty clean value. -/
def resultExclusive (r : String × String) : Prop :=
  (r.2 ≠ "" → r.1 = "") ∧ (r.2 = "" → r.1 ≠ "")

theorem exclusive_err (msg : String) (h : msg ≠ "") : resultExclusive ("", msg) :=
  ⟨fun _ => rfl, fun he => absurd he h⟩

theorem exclusive_ok (v : String) (h : v ≠ "") : resultExclusive (v, "") :=
  ⟨fun hne => absurd rfl hne, fun _ => h⟩

theorem card_value_exclusive (nfkc : String → String) (s : String) :
    validate_card_number nfkc s = Except.error "ValueError" ∨
    (∃ v m, validate_card_number nfkc s = Except.ok (v, m) ∧ resultExclusive (v, m)) := by
  simp only [validate_card_number]
  split_ifs with h1 h2 h3 h4
  · exact Or.inr ⟨_, _, rfl, exclusive_err _ (by decide)⟩
  · exact Or.inr ⟨_, _, rfl, exclusive_err _ (by decide)⟩
  · exact Or.inl rfl
  · exact Or.inr ⟨_, _, rfl, exclusive_err _ (by decide)⟩
  · refine Or.inr ⟨_, _, rfl, exclusive_ok _ ?_⟩
    intro heq
    rw [heq] at h1
    exact h1 (by decide)

theorem card_exclusive (nfkc : String → String) (s : String) (r : String × String)
    (h : validate_card_number nfkc s = Except.ok r) : resultExclusive r := by
  rcases card_value_exclusive nfkc s with hv | ⟨v, m, hv, hex⟩
  · rw [hv] at h; exact Except.noConfusion h
  · rw [hv, Except.ok.injEq] at h
    exact h ▸ hex

theorem exp_exclusive (nfkc : String → String) (s : String) (now : UtcNow) :
    resultExclusive (validate_exp_date nfkc s now) := by
  simp only [validate_exp_date]
  split_ifs with h1 h2 h3
  · exact exclusive_err _ (by decide)
  · exact exclusive_err _ (by decide)
  · exact exclusive_err _ (by decide)
  · refine exclusive_ok _ ?_
    intro heq
    rw [heq] at h1
    exact h1 (by decide)

theorem cvv_clean_empty (nfkc : String → String) (s : String) :
    (validate_cvv nfkc s).1 = "" := by
  simp only [validate_cvv]
  split_ifs <;> rfl

theorem billing_email_exclusive (nfkc : String → String) (s : String) :
    resultExclusive (validate_billing_email nfkc s) := by
  simp only [validate_billing_email]
  split_ifs with h1 h2 h3
  · exact exclusive_err _ (by decide)
  · exact exclusive_err _ (by decide)
  · exact exclusive_err _ (by decide)
  · exact exclusive_ok _ h1

theorem name_on_card_exclusive (nfkc : String → String) (s : String) :
    resultExclusive (validate_name_on_card nfkc s) := by
  simp only [validate_name_on_card]
  split_ifs with h1 h2 h3
  · exact exclusive_err _ (by decide)
  · exact exclusive_err _ (by decide)
  · exact exclusive_err _ (by decide)
  · exact exclusive_ok _ h1

theorem full_name_exclusive (nfkc : String → String) (s : String) :
    resultExclusive (validate_full_name nfkc s) := by
  simp only [validate_full_name]
  split_ifs with h1 h2 h3 h4
  · exact exclusive_err _ (by decide)
  · exact exclusive_err _ (by decide)
  · exact exclusive_err _ (by decide)
  · exact exclusive_err _ (by decide)
  · exact exclusive_ok _ h1

theorem registration_email_exclusive (nfkc : String → String) (s : String)
    (users : List UserRec) :
    resultExclusive (validate_registration_email nfkc s users) := by
  simp only [validate_registration_email]
  split_ifs with h1 h2 h3 h4 h5
  · exact exclusive_err _ (by decide)
  · exact exclusive_err _ (by decide)
  · exact exclusive_err _ (by decide)
  · exact exclusive_err _ (by decide)
  · exact exclusive_err _ (by decide)
  · exact exclusive_ok _ h1

theorem phone_value_exclusive (nfkc : String → String) (s : String) :
    ∃ v m, validate_phone nfkc (some s) = Except.ok (v, m) ∧ resultExclusive (v, m) := by
  simp only [validate_phone, validate_phone_str]
  split_ifs with h1 h2 h3 h4
  · exact ⟨_, _, rfl, exclusive_err _ (by decide)⟩
  · exact ⟨_, _, rfl, exclusive_err _ (by decide)⟩
  · exact ⟨_, _, rfl, exclusive_err _ (by decide)⟩
  · exact ⟨_, _, rfl, exclusive_err _ (by decide)⟩
  · exact ⟨_, _, rfl, exclusive_ok _ h1⟩

theorem phone_exclusive (nfkc : String → String) (p : Option String) (r : String × String)
    (h : validate_phone nfkc p = Except.ok r) : resultExclusive r := by
  cases p with
  | none => exact Except.noConfusion h
  | some s =>
    obtain ⟨v, m, hv, hex⟩ := phone_value_exclusive nfkc s
    rw [hv, Except.ok.injEq] at h
    exact h ▸ hex

theorem password_exclusive (p e c : String) :
    resultExclusive (validate_password p e c) := by
  simp only [validate_password]
  by_cases h1 : p = ""
  · rw [if_pos h1]; exact exclusive_err _ (by decide)
  rw [if_neg h1]
  by_cases h2 : p.length < 8
  · rw [if_pos h2]; exact exclusive_err _ (by decide)
  rw [if_neg h2]
  by_cases h3 : p.length > 64
  · rw [if_pos h3]; exact exclusive_err _ (by decide)
  rw [if_neg h3]
  by_cases h4 : p.data.any pyIsSpace = true
  · rw [if_pos h4]; exact exclusive_err _ (by decide)
  rw [if_neg h4]
  by_cases h5 : (!p.data.any pyIsUpper) = true
  · rw [if_pos h5]; exact exclusive_err _ (by decide)
  rw [if_neg h5]
  by_cases h6 : (!p.data.any pyIsLower) = true
  · rw [if_pos h6]; exact exclusive_err _ (by decide)
  rw [if_neg h6]
  by_cases h7 : (!p.data.any pyIsDigit) = true
  · rw [if_pos h7]; exact exclusive_err _ (by decide)
  rw [if_neg h7]
  by_cases h8 : (!p.data.any fun c => PASSWORD_SPECIAL_CHARS.data.contains c) = true
  · rw [if_pos h8]; exact exclusive_err _ (by decide)
  rw [if_neg h8]
  by_cases h9 : e ≠ "" ∧ p = e
  · rw [if_pos h9]; exact exclusive_err _ (by decide)
  rw [if_neg h9]
  by_cases h10 : c ≠ "" ∧ p ≠ c
  · rw [if_pos h10]; exact exclusive_err _ (by decide)
  rw [if_neg h10]
  exact exclusive_ok _ h1

theorem payment_form_clean_keys (nfkc : String → String)
    (c ed cv n b : String) (now : UtcNow) (cl er : List (String × String))
    (h : validate_payment_form nfkc c ed cv n b now = Except.ok (cl, er)) :
    dictGet cl "cvv" = none ∧
    cl.map Prod.fst = ["card", "exp_date", "name_on_card", "billing_email"] := by
  simp only [validate_payment_form] at h
  cases hc : validate_card_number nfkc c with
  | error e2 => rw [hc] at h; simp at h
  | ok pr =>
    obtain ⟨card, cerr⟩ := pr
    rw [hc] at h
    simp only [Except.ok.injEq, Prod.mk.injEq] at h
    obtain ⟨hcl, her⟩ := h
    rw [← hcl]
    exact ⟨rfl, rfl⟩

/-- C4 (counterexample): the claim says an empty error implies a
non-empty clean value for every per-field validator; but `validate_cvv`
returns `("", "")` on a valid CVV — success with an empty clean value
(the CVV is deliberately never persisted). -/
theorem validation_result_invariant_cex :
    validate_cvv id "123" = ("", "") := by
  decide

/-- C4 (amended): every per-field validator except `validate_cvv`
satisfies the exclusivity invariant — a non-empty error comes with an
empty clean value and an empty error with a non-empty clean value —
while `validate_cvv` always returns an empty clean value (on error and
on success alike), and `validate_payment_form`'s clean dict never
contains a `cvv` entry (its keys are exactly card, exp_date,
name_on_card, billing_email). -/
theorem validation_results_exclusive (nfkc : String → String) :
    (∀ s r, validate_card_number nfkc s = Except.ok r → resultExclusive r) ∧
    (∀ s now, resultExclusive (validate_exp_date nfkc s now)) ∧
    (∀ s, (validate_cvv nfkc s).1 = "") ∧
    (∀ s, resultExclusive (validate_billing_email nfkc s)) ∧
    (∀ s, resultExclusive (validate_name_on_card nfkc s)) ∧
    (∀ s, resultExclusive (validate_full_name nfkc s)) ∧
    (∀ s users, resultExclusive (validate_registration_email nfkc s users)) ∧
    (∀ p r, validate_phone nfkc p = Except.ok r → resultExclusive r) ∧
    (∀ p e c, resultExclusive (validate_password p e c)) ∧
    (∀ c ed cv n b now cl er,
      validate_payment_form nfkc c ed cv n b now = Except.ok (cl, er) →
      dictGet cl "cvv" = none ∧
      cl.map Prod.fst = ["card", "exp_date", "name_on_card", "billing_email"]) :=
  ⟨card_exclusive nfkc, exp_exclusive nfkc, cvv_clean_empty nfkc,
   billing_email_exclusive nfkc, name_on_card_exclusive nfkc, full_name_exclusive nfkc,
   registration_email_exclusive nfkc, phone_exclusive nfkc,
   fun p e c => password_exclusive p e c,
   fun c ed cv n b now cl er h => payment_form_clean_keys nfkc c ed cv n b now cl er h⟩

/-- Witness for the amended C4 at concrete inputs. -/
theorem validation_results_exclusive_witness :
    resultExclusive ("4532015112830366", "") ∧
    resultExclusive (validate_exp_date id "03/24" ⟨2024, 3⟩) ∧
    (validate_cvv id "123").1 = "" ∧
    resultExclusive (validate_password "Abcdef1!" "" "") ∧
    (dictGet [("card", "4532015112830366"), ("exp_date", "03/24"),
        ("name_on_card", "Jane Doe"), ("billing_email", "j@d.com")] "cvv" = none ∧
      [("card", "4532015112830366"), ("exp_date", "03/24"),
        ("name_on_card", "Jane Doe"), ("billing_email", "j@d.com")].map Prod.fst
        = ["card", "exp_date", "name_on_card", "billing_email"]) :=
  ⟨(validation_results_exclusive id).1 "4532015112830366" ("4532015112830366", "")
      (by rfl),
   (validation_results_exclusive id).2.1 "03/24" ⟨2024, 3⟩,
   (validation_results_exclusive id).2.2.1 "123",
   (validation_results_exclusive id).2.2.2.2.2.2.2.2.1 "Abcdef1!" "" "",
   (validation_results_exclusive id).2.2.2.2.2.2.2.2.2 "4532015112830366" "03/24" "123"
     "Jane Doe" "j@d.com" ⟨2024, 3⟩
     [("card", "4532015112830366"), ("exp_date", "03/24"),
       ("name_on_card", "Jane Doe"), ("billing_email", "j@d.com")] []
     (by rfl)⟩

/-! ## Claim theorems: expiration date and card number -/

theorem mem_of_getLast?_eq {α : Type} {l : List α} {a : α}
    (h : l.getLast? = some a) : a ∈ l := by
  rw [← List.head?_reverse] at h
  cases hr : l.reverse with
  | nil => rw [hr] at h; simp at h
  | cons x t =>
    rw [hr] at h
    simp only [List.head?] at h
    injection h with h
    have hx : x ∈ l.reverse := by rw [hr]; exact List.mem_cons_self x t
    rw [h] at hx
    exact List.mem_reverse.mp hx

theorem head?_dropWhile {α : Type} (p : α → Bool) (l : List α) (a : α)
    (h : (l.dropWhile p).head? = some a) : p a = false := by
  induction l with
  | nil => simp [List.dropWhile] at h
  | cons x t ih =>
    by_cases hp : p x = true
    · rw [List.dropWhile_cons_of_pos hp] at h
      exact ih h
    · rw [List.dropWhile_cons_of_neg hp] at h
      simp only [List.head?] at h
      injection h with h
      rw [← h]
      exact Bool.not_eq_true _ ▸ hp

theorem pyStrip_getLast?_not_space (s : String) (c : Char)
    (h : (pyStrip s).data.getLast? = some c) : pyIsSpace c = false := by
  simp only [pyStrip] at h
  rw [List.getLast?_reverse] at h
  exact head?_dropWhile _ _ _ h

/-- A stripped string never ends in a newline, so the `$`-anchor subject
is the whole string. -/
theorem dollarSubject_stripped (s : String) :
    dollarSubject (pyStrip s).data = (pyStrip s).data := by
  unfold dollarSubject
  cases hl : (pyStrip s).data.getLast? with
  | none => simp
  | some c =>
    have hc : pyIsSpace c = false := pyStrip_getLast?_not_space s c hl
    have hne : c ≠ '\n' := by
      intro hcc
      rw [hcc] at hc
      exact absurd hc (by decide)
    simp [hne]

theorem char_eq_of_cn {c d : Char} (h : cn c = cn d) : c = d :=
  Char.ext (UInt32.ext h)

/-- On the ASCII digits, `int(·)`'s digit value is the offset from
`'0'`: the ASCII run `0x30..0x39` heads the `Nd` table. -/
theorem digitVal_ascii (c : Char) (h1 : 48 ≤ cn c) (h2 : cn c ≤ 57) :
    digitVal c = cn c - 48 := by
  have hp : ((48 : Nat) ≤ cn c && cn c < 48 + 10) = true := by
    simp only [Bool.and_eq_true, decide_eq_true_eq]
    omega
  simp only [digitVal, ndStarts, List.find?, hp]

/-- The two regex alternatives `0[1-9]` and `1[0-2]` describe exactly the
digit pairs whose month value is 01–12. -/
theorem expMonthOk_iff (a b : Char) (ha : isAsciiDigit a = true) (hb : isAsciiDigit b = true) :
    ((a = '0' ∧ 49 ≤ cn b ∧ cn b ≤ 57) ∨ (a = '1' ∧ 48 ≤ cn b ∧ cn b ≤ 50)) ↔
    (1 ≤ 10 * digitVal a + digitVal b ∧ 10 * digitVal a + digitVal b ≤ 12) := by
  simp only [isAsciiDigit, Bool.and_eq_true, decide_eq_true_eq] at ha hb
  rw [digitVal_ascii a ha.1 ha.2, digitVal_ascii b hb.1 hb.2]
  constructor
  · rintro (⟨rfl, h1, h2⟩ | ⟨rfl, h1, h2⟩)
    · have h0 : cn '0' = 48 := rfl
      omega
    · have h0 : cn '1' = 49 := rfl
      omega
  · rintro ⟨h1, h2⟩
    by_cases ha0 : cn a = 48
    · exact Or.inl ⟨char_eq_of_cn (by rw [ha0]; rfl), by omega, by omega⟩
    · have ha1 : cn a = 49 := by omega
      exact Or.inr ⟨char_eq_of_cn (by rw [ha1]; rfl), by omega, by omega⟩

/-- The spec-side `MM/YY` shape: five characters `M M / Y Y` with month
value 01–12.  The month characters are ASCII digits — `EXP_RE` spells
the month as the literal ranges `0[1-9]|1[0-2]` — while the year
positions come from `\d{2}` and accept any Unicode decimal digit. -/
def isMMYY (e : String) : Bool :=
  match e.data with
  | [m1, m2, sl, y1, y2] =>
    isAsciiDigit m1 && isAsciiDigit m2 && sl = '/' && pyIsDigit y1 && pyIsDigit y2 &&
    1 ≤ 10 * digitVal m1 + digitVal m2 && 10 * digitVal m1 + digitVal m2 ≤ 12
  | _ => false

/-- On `$`-clean input the compiled `EXP_RE` accepts exactly the
spec-side `MM/YY` shape. -/
theorem expMatch_eq_isMMYY (e : String) (hds : dollarSubject e.data = e.data) :
    expMatch e = isMMYY e := by
  unfold expMatch isMMYY
  rw [hds]
  rcases hl : e.data with _ | ⟨a, _ | ⟨b, _ | ⟨c3, _ | ⟨d4, _ | ⟨e5, _ | ⟨f6, t⟩⟩⟩⟩⟩⟩ <;>
    try rfl
  rw [Bool.eq_iff_iff]
  simp only [Bool.and_eq_true, Bool.or_eq_true, decide_eq_true_eq, and_assoc]
  constructor
  · rintro ⟨hsl, hd4, he5, hor⟩
    have hab : isAsciiDigit a = true ∧ isAsciiDigit b = true := by
      rcases hor with ⟨rfl, h1, h2⟩ | ⟨rfl, h1, h2⟩
      · exact ⟨by decide, by simp [isAsciiDigit]; omega⟩
      · exact ⟨by decide, by simp [isAsciiDigit]; omega⟩
    refine ⟨hab.1, hab.2, hsl, hd4, he5, ?_, ?_⟩
    · exact ((expMonthOk_iff a b hab.1 hab.2).mp hor).1
    · exact ((expMonthOk_iff a b hab.1 hab.2).mp hor).2
  · rintro ⟨ha, hb, hsl, hy1, hy2, hm1, hm2⟩
    exact ⟨hsl, hy1, hy2, (expMonthOk_iff a b ha hb).mpr ⟨hm1, hm2⟩⟩

/-- C7: on the normalized input `e`, `validate_exp_date` accepts exactly
the `MM/YY` strings with month 01–12 whose year `20YY` and month are not
strictly before the clock's (year, month) — the same month and year is
accepted — and whose year is at most the clock year plus 15; strictly
earlier dates are rejected as expired and later years as too far in the
future. -/
theorem exp_date_acceptance (nfkc : String → String) (exp : String) (now : UtcNow)
    (e : String) (he : e = normalize_basic nfkc (some exp)) :
    (validate_exp_date nfkc exp now = (e, "") ↔
      (isMMYY e = true ∧
       ¬(2000 + expYY e < now.year ∨
         (2000 + expYY e = now.year ∧ expMonth e < now.month)) ∧
       2000 + expYY e ≤ now.year + 15)) ∧
    (isMMYY e = true →
      (2000 + expYY e < now.year ∨ (2000 + expYY e = now.year ∧ expMonth e < now.month)) →
      validate_exp_date nfkc exp now = ("", "Card is expired")) ∧
    (isMMYY e = true →
      ¬(2000 + expYY e < now.year ∨ (2000 + expYY e = now.year ∧ expMonth e < now.month)) →
      now.year + 15 < 2000 + expYY e →
      validate_exp_date nfkc exp now = ("", "Expiration date too far in future")) := by
  subst he
  have hm : expMatch (normalize_basic nfkc (some exp))
      = isMMYY (normalize_basic nfkc (some exp)) :=
    expMatch_eq_isMMYY _ (dollarSubject_stripped _)
  simp only [validate_exp_date]
  rw [hm]
  by_cases hf : isMMYY (normalize_basic nfkc (some exp)) = true
  · rw [if_neg (by simp [hf])]
    by_cases hexp2 : 2000 + expYY (normalize_basic nfkc (some exp)) < now.year ∨
        (2000 + expYY (normalize_basic nfkc (some exp)) = now.year ∧
         expMonth (normalize_basic nfkc (some exp)) < now.month)
    · rw [if_pos hexp2]
      refine ⟨⟨?_, ?_⟩, fun _ _ => rfl, fun _ hne _ => absurd hexp2 hne⟩
      · intro hcontra
        have h2 := congrArg Prod.snd hcontra
        simp at h2
      · rintro ⟨_, hne, _⟩
        exact absurd hexp2 hne
    · rw [if_neg hexp2]
      by_cases hfut : 2000 + expYY (normalize_basic nfkc (some exp)) > now.year + 15
      · rw [if_pos hfut]
        refine ⟨⟨?_, ?_⟩, fun _ h => absurd h hexp2, fun _ _ _ => rfl⟩
        · intro hcontra
          have h2 := congrArg Prod.snd hcontra
          simp at h2
        · rintro ⟨_, _, hle⟩
          omega
      · rw [if_neg hfut]
        refine ⟨⟨fun _ => ⟨hf, hexp2, by omega⟩, fun _ => rfl⟩,
          fun _ h => absurd h hexp2, fun _ _ hgt => absurd hgt (by omega)⟩
  · rw [Bool.not_eq_true] at hf
    rw [if_pos (by simp [hf])]
    refine ⟨⟨?_, ?_⟩, fun hism => absurd hism (by simp [hf]),
      fun hism => absurd hism (by simp [hf])⟩
    · intro hcontra
      have h2 := congrArg Prod.snd hcontra
      simp at h2
    · rintro ⟨hism, _, _⟩
      exact absurd hism (by simp [hf])

/-- Witness for C7 at the two spec examples evaluated at March 2024. -/
theorem exp_date_acceptance_witness :
    validate_exp_date id "03/24" ⟨2024, 3⟩ = ("03/24", "") ∧
    validate_exp_date id "01/20" ⟨2024, 3⟩ = ("", "Card is expired") :=
  ⟨(exp_date_acceptance id "03/24" ⟨2024, 3⟩ "03/24" rfl).1.mpr
      ⟨by decide, by decide, by decide⟩,
   (exp_date_acceptance id "01/20" ⟨2024, 3⟩ "01/20" rfl).2.1 (by decide) (by decide)⟩

/-- The one shape Python's `$` anchor lets past the all-digits regex: one
or more digits followed by exactly one trailing newline. -/
def digitsTrailingNewline (l : List Char) : Bool :=
  l.getLast? = some '\n' && !l.dropLast.isEmpty && l.dropLast.all pyIsDigit

/-- C8 (counterexample): the claim says every string still containing a
non-digit after stripping is rejected with the digits-only error.  For
input `"12\n-"` the stripped value is `"12\n"`, which contains the
non-digit `'\n'` — yet `re.match("^\d+$", ·)` accepts it (`$` matches
before a trailing newline) and the validator returns the length error
instead. -/
theorem card_nondigit_rejection_cex :
    pyRemoveChar '-' (pyRemoveChar ' ' (normalize_basic id (some "12\n-"))) = "12\n" ∧
    pyIsDigit '\n' = false ∧
    validate_card_number id "12\n-"
      = Except.ok ("", "Card number must be between 13 and 19 digits") :=
  ⟨by decide, by decide, by rfl⟩

/-- C8 (amended): after normalization and stripping of spaces and
hyphens, (a) every all-digit value of length 13–19 passing Luhn is
returned clean with no error, and (b) every value containing a non-digit
is rejected with the digits-only error **unless** it is one or more
digits followed by a single trailing newline — a shape Python's `$`
anchor lets through the digits check (it then fails the length check or
raises `ValueError` inside the Luhn loop, cf. C2). -/
theorem card_number_characterization (nfkc : String → String) (input card : String)
    (hc : card = pyRemoveChar '-' (pyRemoveChar ' ' (normalize_basic nfkc (some input)))) :
    (card.data.all pyIsDigit = true → 13 ≤ card.length → card.length ≤ 19 →
      luhn_is_valid card = true → validate_card_number nfkc input = Except.ok (card, "")) ∧
    ((∃ c ∈ card.data, pyIsDigit c = false) → digitsTrailingNewline card.data = false →
      validate_card_number nfkc input
        = Except.ok ("", "Card number must contain digits only")) := by
  constructor
  · intro hall h13 h19 hluhn
    have hds : dollarSubject card.data = card.data := by
      unfold dollarSubject
      cases hl : card.data.getLast? with
      | none => simp
      | some c =>
        have hcd : pyIsDigit c = true :=
          List.all_eq_true.mp hall c (mem_of_getLast?_eq hl)
        have hne : c ≠ '\n' := by
          intro hcc
          rw [hcc] at hcd
          exact absurd hcd (by decide)
        simp [hne]
    have hmatch : digitsOnlyMatch card = true := by
      simp only [digitsOnlyMatch, hds]
      have hne : card.data.isEmpty = false := by
        cases hd : card.data with
        | nil =>
          have : card.length = 0 := by
            simp [String.length, hd]
          omega
        | cons x t => simp
      simp [hall, hne]
    simp only [validate_card_number, ← hc]
    rw [if_neg (by simp [hmatch]), if_neg (by simp [h13, h19]), if_neg (by simp [hall]),
      if_neg (by simp [hluhn])]
  · rintro ⟨c0, hc0mem, hc0⟩ hnot
    have hmatch : digitsOnlyMatch card = false := by
      simp only [digitsOnlyMatch]
      unfold dollarSubject
      by_cases hl : card.data.getLast? = some '\n'
      · rw [if_pos hl]
        simp [digitsTrailingNewline, hl] at hnot
        simpa using hnot
      · rw [if_neg hl]
        have hallf : card.data.all pyIsDigit = false := by
          rw [Bool.eq_false_iff]
          intro hall
          have := List.all_eq_true.mp hall c0 hc0mem
          rw [hc0] at this
          exact Bool.noConfusion this
        simp [hallf]
    simp only [validate_card_number, ← hc]
    rw [if_pos (by simp [hmatch])]

/-- Witness for the amended C8: a spaced/hyphenated valid Visa test
number is accepted clean; a value with letters gets the digits-only
error. -/
theorem card_number_characterization_witness :
    validate_card_number id "4532 0151-1283 0366" = Except.ok ("4532015112830366", "") ∧
    validate_card_number id "4532abc"
      = Except.ok ("", "Card number must contain digits only") :=
  ⟨(card_number_characterization id "4532 0151-1283 0366" "4532015112830366"
      (by decide)).1 (by decide) (by decide) (by decide) (by decide),
   (card_number_characterization id "4532abc" "4532abc" (by decide)).2
      ⟨'a', by decide, by decide⟩ (by decide)⟩

end EventHub
